import Mathlib

/-!
Verification of the incident-io MCP server's client resilience layer:
circuit breaker, retry executor, token-bucket rate limiter and TTL cache.

The Go source is embedded shallowly:
- `time.Time` / `time.Duration` values (int64 nanoseconds) and `float64`
  quantities are modelled as exact rationals (`ℚ`);
- Go `int` counters, which are only ever incremented from zero, are
  modelled as `ℕ`; HTTP status codes as `ℕ`;
- Go `error` values are modelled by inductive types (`none` = nil);
  opaque payloads (response bodies, error messages) are abstracted as `ℕ`;
- mutexes, goroutines and context cancellation are elided: every operation
  is a pure state transition, with the current wall-clock time passed
  explicitly (`now : ℚ`); the rate limiter's `Wait` is modelled as always
  succeeding (no cancellation), since it only delays and never fails the
  request otherwise.
-/

/-- CircuitState from circuitbreaker.go: the three states of the breaker. -/
inductive CircuitState where
  | StateClosed
  | StateOpen
  | StateHalfOpen
deriving DecidableEq, Repr

/-- Go error values produced inside the client resilience layer:
`ErrCircuitOpen`, `ErrTooManyRequests` (the two sentinel errors of
circuitbreaker.go) and failures of `executeRequest` (network errors or
HTTP >= 400 responses), abstracted by a numeric id. -/
inductive GoErr where
  | circuitOpen
  | tooManyRequests
  | reqFailed (code : ℕ)
deriving DecidableEq, Repr

/-- CircuitBreakerConfig from circuitbreaker.go. -/
structure CircuitBreakerConfig where
  MaxFailures : ℕ
  Timeout : ℚ
  HalfOpenMaxRequests : ℕ
  FailureThreshold : ℚ
  MinRequests : ℕ
deriving DecidableEq, Repr

/-- Rational one half (0.5), given in lowest terms so that kernel
reduction of comparisons involving it never has to normalize. -/
def ratHalf : ℚ := ⟨1, 2, by decide, Nat.gcd_one_left 2⟩

/-- DefaultCircuitBreakerConfig from circuitbreaker.go (Timeout is 30s,
written in nanoseconds; FailureThreshold is 0.5). -/
def DefaultCircuitBreakerConfig : CircuitBreakerConfig :=
  { MaxFailures := 5
    Timeout := 30000000000
    HalfOpenMaxRequests := 3
    FailureThreshold := ratHalf
    MinRequests := 10 }

/-- CircuitBreaker from circuitbreaker.go: configuration plus mutable
state (the mutex is elided). -/
structure CircuitBreaker where
  config : CircuitBreakerConfig
  state : CircuitState
  failures : ℕ
  successes : ℕ
  requests : ℕ
  lastFailureTime : ℚ
  lastStateChange : ℚ
  halfOpenRequests : ℕ
  consecutiveFailures : ℕ
deriving DecidableEq, Repr

/-- NewCircuitBreaker from circuitbreaker.go (with a non-nil config):
closed state, zero counters, lastStateChange stamped with the current
time; lastFailureTime is Go's zero time, modelled as 0. -/
def NewCircuitBreaker (config : CircuitBreakerConfig) (now : ℚ) : CircuitBreaker :=
  { config := config
    state := .StateClosed
    failures := 0
    successes := 0
    requests := 0
    lastFailureTime := 0
    lastStateChange := now
    halfOpenRequests := 0
    consecutiveFailures := 0 }

/-- beforeRequest from circuitbreaker.go. Returns the rejection error (if
any) and the updated breaker. In the Open branch, Go sets
`halfOpenRequests = 0` and then increments it together with `requests`;
the two writes are collapsed into `halfOpenRequests := 1`. The `default`
case of the Go switch is unreachable (the state type has exactly the
three constructors). -/
def CircuitBreaker.beforeRequest (cb : CircuitBreaker) (now : ℚ) :
    Option GoErr × CircuitBreaker :=
  match cb.state with
  | .StateClosed =>
      (none, { cb with requests := cb.requests + 1 })
  | .StateOpen =>
      if now - cb.lastStateChange > cb.config.Timeout then
        (none, { cb with
          state := .StateHalfOpen
          lastStateChange := now
          requests := cb.requests + 1
          halfOpenRequests := 1 })
      else
        (some .circuitOpen, cb)
  | .StateHalfOpen =>
      if cb.halfOpenRequests ≥ cb.config.HalfOpenMaxRequests then
        (some .tooManyRequests, cb)
      else
        (none, { cb with
          requests := cb.requests + 1
          halfOpenRequests := cb.halfOpenRequests + 1 })

/-- shouldOpen from circuitbreaker.go: trip on consecutive failures, or on
the failure rate once enough requests were seen (float division modelled
as exact rational division). -/
def CircuitBreaker.shouldOpen (cb : CircuitBreaker) : Bool :=
  cb.consecutiveFailures ≥ cb.config.MaxFailures ||
    (cb.requests ≥ cb.config.MinRequests &&
      (cb.failures : ℚ) / (cb.requests : ℚ) ≥ cb.config.FailureThreshold)

/-- reset from circuitbreaker.go: clears the five counters. -/
def CircuitBreaker.reset (cb : CircuitBreaker) : CircuitBreaker :=
  { cb with
    failures := 0
    successes := 0
    requests := 0
    consecutiveFailures := 0
    halfOpenRequests := 0 }

/-- onFailure from circuitbreaker.go. -/
def CircuitBreaker.onFailure (cb : CircuitBreaker) (now : ℚ) : CircuitBreaker :=
  let cb1 := { cb with
    failures := cb.failures + 1
    consecutiveFailures := cb.consecutiveFailures + 1
    lastFailureTime := now }
  match cb1.state with
  | .StateClosed =>
      if cb1.shouldOpen then
        { cb1 with state := .StateOpen, lastStateChange := now }
      else cb1
  | .StateHalfOpen =>
      { cb1 with state := .StateOpen, lastStateChange := now, halfOpenRequests := 0 }
  | .StateOpen => cb1

/-- onSuccess from circuitbreaker.go. -/
def CircuitBreaker.onSuccess (cb : CircuitBreaker) (now : ℚ) : CircuitBreaker :=
  let cb1 := { cb with successes := cb.successes + 1, consecutiveFailures := 0 }
  match cb1.state with
  | .StateHalfOpen =>
      if cb1.halfOpenRequests ≥ cb1.config.HalfOpenMaxRequests then
        ({ cb1 with state := .StateClosed, lastStateChange := now }).reset
      else cb1
  | _ => cb1

/-- afterRequest from circuitbreaker.go: dispatch on whether the wrapped
function returned an error. -/
def CircuitBreaker.afterRequest (cb : CircuitBreaker) (now : ℚ) (err : Option ℕ) :
    CircuitBreaker :=
  match err with
  | some _ => cb.onFailure now
  | none => cb.onSuccess now

/-- Call from circuitbreaker.go. The wrapped function is represented by
its outcome `fnErr` (the error `executeRequest` would return). Returns
the error seen by the caller, whether the wrapped function was actually
invoked, and the updated breaker. -/
def CircuitBreaker.Call (cb : CircuitBreaker) (now : ℚ) (fnErr : Option ℕ) :
    Option GoErr × Bool × CircuitBreaker :=
  match cb.beforeRequest now with
  | (some e, cb1) => (some e, false, cb1)
  | (none, cb1) => (fnErr.map .reqFailed, true, cb1.afterRequest now fnErr)

/-- Reset (the exported manual reset) from circuitbreaker.go. -/
def CircuitBreaker.Reset (cb : CircuitBreaker) (now : ℚ) : CircuitBreaker :=
  ({ cb with state := .StateClosed, lastStateChange := now }).reset

/-- RetryConfig from ratelimiter.go. Durations in nanoseconds as `ℚ`; the
Go `map[int]bool` (whose lookup yields false for absent keys) is modelled
as a total boolean function on status codes. -/
structure RetryConfig where
  MaxRetries : ℕ
  InitialBackoff : ℚ
  MaxBackoff : ℚ
  Multiplier : ℚ
  RetryableStatusCodes : ℕ → Bool

/-- DefaultRetryConfig from ratelimiter.go: 3 retries, 100ms initial
backoff, 10s max backoff, multiplier 2, retryable codes
408, 429, 500, 502, 503, 504. -/
def DefaultRetryConfig : RetryConfig :=
  { MaxRetries := 3
    InitialBackoff := 100000000
    MaxBackoff := 10000000000
    Multiplier := 2
    RetryableStatusCodes := fun s =>
      s == 408 || s == 429 || s == 500 || s == 502 || s == 503 || s == 504 }

/-- ShouldRetry from ratelimiter.go: any non-nil error is retryable;
otherwise consult the retryable status-code set. -/
def RetryConfig.ShouldRetry (rc : RetryConfig) (statusCode : ℕ) (err : Option GoErr) :
    Bool :=
  match err with
  | some _ => true
  | none => rc.RetryableStatusCodes statusCode

/-- pow from ratelimiter.go: `result := 1.0; for i := 0; i < int(exp); i++
\x7b result *= base \x7d`. The exponent reaching it is the (non-negative)
attempt number, so it is taken as `ℕ`. -/
def powGo (base : ℚ) (exp : ℕ) : ℚ :=
  match exp with
  | 0 => 1
  | n + 1 => powGo base n * base

/-- CalculateBackoff from ratelimiter.go: `InitialBackoff` for attempt 0,
otherwise `InitialBackoff * Multiplier ^ attempt` capped at `MaxBackoff`. -/
def RetryConfig.CalculateBackoff (rc : RetryConfig) (attempt : ℕ) : ℚ :=
  if attempt ≤ 0 then rc.InitialBackoff
  else
    let backoff := rc.InitialBackoff * powGo rc.Multiplier attempt
    if backoff > rc.MaxBackoff then rc.MaxBackoff else backoff

/-- RetryableError from ratelimiter.go: the structured terminal error
returned when the retry loop gives up. -/
structure RetryableError where
  Err : Option GoErr
  Attempt : ℕ
  MaxRetries : ℕ
  StatusCode : ℕ
deriving DecidableEq, Repr

/-- Outcome of one invocation of executeRequest (client.go): response
body, HTTP status code, and error (none = success). Body and error
payloads are abstracted as numerals. -/
structure ReqResult where
  body : ℕ
  status : ℕ
  err : Option ℕ
deriving DecidableEq, Repr

/-- Result of doRequestWithContext (client.go): success with a body, the
immediate circuit-open return (the `err == ErrCircuitOpen` branch), or
the terminal RetryableError. -/
inductive ExecResult where
  | ok (body : ℕ)
  | circuitOpen
  | exhausted (e : RetryableError)
deriving DecidableEq, Repr

/-- Body of the retry loop of doRequestWithContext (client.go), as a
fuel-indexed recursion: `fuel` is the number of loop iterations still
allowed by the loop condition `attempt <= MaxRetries` and the `fuel = 0`
case is the post-loop `return nil, (and)RetryableError(...)`. The
dependency `dep` gives the outcome of the n-th actual network call; `tm`
gives the wall-clock time at each attempt. The accumulators thread the
loop-carried Go variables `lastErr` and `statusCode` (the latter is only
written inside the closure, hence only updated when the breaker actually
invoked it), plus ghost observations: the number of network calls
performed and the list of backoff sleeps executed. -/
def execAux (rc : RetryConfig) (dep : ℕ → ReqResult) (tm : ℕ → ℚ)
    (attempt fuel : ℕ) (cb : CircuitBreaker) (lastErr : Option GoErr)
    (statusCode fnCalls : ℕ) (sleeps : List ℚ) :
    ExecResult × ℕ × List ℚ × CircuitBreaker :=
  match fuel with
  | 0 =>
      (.exhausted ⟨lastErr, rc.MaxRetries + 1, rc.MaxRetries, statusCode⟩,
        fnCalls, sleeps, cb)
  | fuel + 1 =>
      let r := dep fnCalls
      let res := cb.Call (tm attempt) r.err
      let invoked := res.2.1
      let cb2 := res.2.2
      let sc2 := if invoked then r.status else statusCode
      let fn2 := if invoked then fnCalls + 1 else fnCalls
      match res.1 with
      | some .circuitOpen => (.circuitOpen, fn2, sleeps, cb2)
      | none => (.ok r.body, fn2, sleeps, cb2)
      | some e =>
          if attempt < rc.MaxRetries && rc.ShouldRetry sc2 (some e) then
            execAux rc dep tm (attempt + 1) fuel cb2 (some e) sc2 fn2
              (sleeps ++ [rc.CalculateBackoff attempt])
          else
            (.exhausted ⟨some e, rc.MaxRetries + 1, rc.MaxRetries, sc2⟩,
              fn2, sleeps, cb2)

/-- doRequestWithContext from client.go: run the retry loop from attempt
0 with fuel for the `MaxRetries + 1` iterations the loop condition
allows, starting from Go zero values for `lastErr` and `statusCode`. -/
def doRequestWithContext (rc : RetryConfig) (cb : CircuitBreaker)
    (dep : ℕ → ReqResult) (tm : ℕ → ℚ) :
    ExecResult × ℕ × List ℚ × CircuitBreaker :=
  execAux rc dep tm 0 (rc.MaxRetries + 1) cb none 0 0 []

/-- CacheEntry from cache.go: a cached value with its expiration time.
The `interface\x7b\x7d` payload is a type parameter. -/
structure CacheEntry (α : Type) where
  Data : α
  ExpiresAt : ℚ
deriving DecidableEq

/-- Cache from cache.go: the `map[string]*CacheEntry` is modelled as a
total function to `Option`. -/
structure Cache (α : Type) where
  entries : String → Option (CacheEntry α)
  ttl : ℚ

/-- NewCache from cache.go: empty map, fixed per-instance ttl. -/
def NewCache (α : Type) (ttl : ℚ) : Cache α :=
  { entries := fun _ => none, ttl := ttl }

/-- Get from cache.go: found only if the key is present and
`time.Now().After(ExpiresAt)` is false (strictly-after comparison). -/
def Cache.Get {α : Type} (c : Cache α) (now : ℚ) (key : String) :
    Option α × Bool :=
  match c.entries key with
  | none => (none, false)
  | some entry =>
      if now > entry.ExpiresAt then (none, false)
      else (some entry.Data, true)

/-- Set from cache.go: unconditionally overwrite the key with a fresh
entry expiring at `now + ttl`. -/
def Cache.Set {α : Type} (c : Cache α) (now : ℚ) (key : String) (value : α) :
    Cache α :=
  { c with entries := fun k =>
      if k = key then some ⟨value, now + c.ttl⟩ else c.entries k }

/-- Clear from cache.go: replace the map with a fresh empty one. -/
def Cache.Clear {α : Type} (c : Cache α) : Cache α :=
  { c with entries := fun _ => none }

/-- Delete from cache.go: remove one key. -/
def Cache.Delete {α : Type} (c : Cache α) (key : String) : Cache α :=
  { c with entries := fun k => if k = key then none else c.entries k }

/-- CleanExpired from cache.go: one pass deleting every entry whose
expiry is strictly before `now`. -/
def Cache.CleanExpired {α : Type} (c : Cache α) (now : ℚ) : Cache α :=
  { c with entries := fun k =>
      match c.entries k with
      | some entry => if now > entry.ExpiresAt then none else some entry
      | none => none }

/-- The cache operations named by the spec, as a small operation
language over which whole-sequence statements are made. -/
inductive CacheOp (α : Type) where
  | set (key : String) (value : α)
  | get (key : String)
  | del (key : String)
  | clear
  | cleanExpired

/-- State transition of each cache operation. Get takes the read lock
and only reads the map (cache.go), so its transition is the identity. -/
def Cache.applyOp {α : Type} (c : Cache α) (now : ℚ) : CacheOp α → Cache α
  | .set k v => c.Set now k v
  | .get _ => c
  | .del k => c.Delete k
  | .clear => c.Clear
  | .cleanExpired => c.CleanExpired now

/-- RateLimiter from ratelimiter.go: a token bucket (mutex elided,
float64 quantities as `ℚ`). -/
structure RateLimiter where
  tokens : ℚ
  maxTokens : ℚ
  refillRate : ℚ
  lastRefill : ℚ
  requestsCount : ℕ
  throttledCount : ℕ
deriving DecidableEq, Repr

/-- NewRateLimiter from ratelimiter.go: starts full, lastRefill stamped
with the creation time. -/
def NewRateLimiter (maxTokens refillRate : ℚ) (now : ℚ) : RateLimiter :=
  { tokens := maxTokens
    maxTokens := maxTokens
    refillRate := refillRate
    lastRefill := now
    requestsCount := 0
    throttledCount := 0 }

/-- refill from ratelimiter.go: add `elapsed * refillRate` tokens, cap at
`maxTokens`, stamp `lastRefill`. -/
def RateLimiter.refill (rl : RateLimiter) (now : ℚ) : RateLimiter :=
  let elapsed := now - rl.lastRefill
  let tokens1 := rl.tokens + elapsed * rl.refillRate
  let tokens2 := if tokens1 > rl.maxTokens then rl.maxTokens else tokens1
  { rl with tokens := tokens2, lastRefill := now }

/-- tryAcquire from ratelimiter.go: refill, count the request, then take
one token if at least one is available. -/
def RateLimiter.tryAcquire (rl : RateLimiter) (now : ℚ) : Bool × RateLimiter :=
  let rl1 := rl.refill now
  let rl2 := { rl1 with requestsCount := rl1.requestsCount + 1 }
  if rl2.tokens ≥ 1 then
    (true, { rl2 with tokens := rl2.tokens - 1 })
  else
    (false, { rl2 with throttledCount := rl2.throttledCount + 1 })

/-- A sequence of tryAcquire calls at the given times. -/
def RateLimiter.runAcquires (rl : RateLimiter) : List ℚ → RateLimiter
  | [] => rl
  | t :: ts => ((rl.tryAcquire t).2).runAcquires ts

/-- Token-bucket invariant claimed by the spec. -/
def RateLimiter.tokensInv (rl : RateLimiter) : Prop :=
  0 ≤ rl.tokens ∧ rl.tokens ≤ rl.maxTokens

/-- All five circuit breaker counters cleared by reset are zero. -/
def CircuitBreaker.countersZero (cb : CircuitBreaker) : Prop :=
  cb.failures = 0 ∧ cb.successes = 0 ∧ cb.requests = 0 ∧
    cb.consecutiveFailures = 0 ∧ cb.halfOpenRequests = 0

/-- Iterate `Call` with a succeeding wrapped function at a fixed time. -/
def succCalls (cb : CircuitBreaker) (t : ℚ) : ℕ → CircuitBreaker
  | 0 => cb
  | n + 1 => succCalls (cb.Call t none).2.2 t n

/-- Breaker configuration with `maxFailures = 3` used in the concrete
scenarios (timeout 30, half-open cap 3, 50 percent threshold after 10
requests). -/
def cfg3 : CircuitBreakerConfig :=
  { MaxFailures := 3
    Timeout := 30
    HalfOpenMaxRequests := 3
    FailureThreshold := ratHalf
    MinRequests := 10 }

/-- The breaker state reached from `cb0` after three failed calls at
times 1, 2, 3: open since time 3 with three consecutive failures. -/
def cbAfter3 : CircuitBreaker :=
  { config := cfg3
    state := .StateOpen
    failures := 3
    successes := 0
    requests := 3
    lastFailureTime := 3
    lastStateChange := 3
    halfOpenRequests := 0
    consecutiveFailures := 3 }

/-- Fresh breaker with `cfg3`, created at time 0. -/
def cb0 : CircuitBreaker := NewCircuitBreaker cfg3 0

/-- Breaker stuck saturated in half-open: `halfOpenRequests` has reached
the cap, so `beforeRequest` answers `ErrTooManyRequests`. -/
def cbSat : CircuitBreaker :=
  { config := cfg3
    state := .StateHalfOpen
    failures := 0
    successes := 0
    requests := 0
    lastFailureTime := 0
    lastStateChange := 0
    halfOpenRequests := 3
    consecutiveFailures := 0 }

/-- Breaker in the open state since time 0. -/
def cbOpenW : CircuitBreaker :=
  { config := cfg3
    state := .StateOpen
    failures := 1
    successes := 0
    requests := 1
    lastFailureTime := 0
    lastStateChange := 0
    halfOpenRequests := 0
    consecutiveFailures := 1 }

/-- Closed breaker that has seen 10 requests with 5 failures. -/
def cbClosedW : CircuitBreaker :=
  { config := cfg3
    state := .StateClosed
    failures := 5
    successes := 5
    requests := 10
    lastFailureTime := 0
    lastStateChange := 0
    halfOpenRequests := 0
    consecutiveFailures := 0 }

/-- Retry policy with a single retry and small backoffs. -/
def rc1 : RetryConfig :=
  { MaxRetries := 1
    InitialBackoff := 100
    MaxBackoff := 1000
    Multiplier := 2
    RetryableStatusCodes := fun s => s == 503 }

/-- Retry policy with `maxRetries = 2` and 503 retryable, as in the
end-to-end scenario. -/
def rc2 : RetryConfig :=
  { MaxRetries := 2
    InitialBackoff := 100
    MaxBackoff := 1000
    Multiplier := 2
    RetryableStatusCodes := fun s => s == 503 }

/-- Dependency that answers 503 with a non-nil error on every call, as
`executeRequest` does for any HTTP status >= 400. -/
def dep9 : ℕ → ReqResult := fun _ => { body := 0, status := 503, err := some 9 }

/-- Constant clock. -/
def tm0 : ℕ → ℚ := fun _ => 0

/-- Concrete cache holding 42 at key k, written at time 0 with ttl 10. -/
def cacheW : Cache ℕ := (NewCache ℕ 10).Set 0 ("k") 42

/-- Fresh breaker with the default configuration, created at time 0. -/
def cbFreshW : CircuitBreaker := NewCircuitBreaker DefaultCircuitBreakerConfig 0

/-! Theorems. -/

/-- Claim C7: ShouldRetry returns true whenever the error is non-nil;
with a nil error it returns exactly the configured retryable-set lookup;
under the default configuration it accepts each of 408, 429, 500, 502,
503, 504 and rejects 200 and 404. -/
theorem shouldRetry_spec :
    (∀ (rc : RetryConfig) (sc : ℕ) (e : GoErr), rc.ShouldRetry sc (some e) = true) ∧
    (∀ (rc : RetryConfig) (sc : ℕ), rc.ShouldRetry sc none = rc.RetryableStatusCodes sc) ∧
    (∀ s ∈ ([408, 429, 500, 502, 503, 504] : List ℕ),
      DefaultRetryConfig.ShouldRetry s none = true) ∧
    DefaultRetryConfig.ShouldRetry 200 none = false ∧
    DefaultRetryConfig.ShouldRetry 404 none = false := by
  refine ⟨fun rc sc e => rfl, fun rc sc => rfl, ?_, rfl, rfl⟩
  intro s hs
  fin_cases hs <;> rfl

/-- Witness for C7 at concrete inputs. -/
theorem shouldRetry_spec_witness :
    DefaultRetryConfig.ShouldRetry 503 (some (.reqFailed 9)) = true ∧
    DefaultRetryConfig.ShouldRetry 503 none = true :=
  ⟨shouldRetry_spec.1 DefaultRetryConfig 503 (.reqFailed 9),
   shouldRetry_spec.2.2.1 503 (by decide)⟩

/-- Claim C10: the state transition of a Get is the identity, so the set
of stored entries (expired ones included) is the same before and after;
storage shrinks only through Delete, Clear, CleanExpired or an
overwriting Set. -/
theorem cacheGet_frame :
    (∀ (α : Type) (c : Cache α) (now : ℚ) (key : String),
      c.applyOp now (.get key) = c) ∧
    (∀ (α : Type) (c : Cache α) (now : ℚ) (key k2 : String),
      (c.applyOp now (.get key)).entries k2 = c.entries k2) :=
  ⟨fun _ _ _ _ => rfl, fun _ _ _ _ _ => rfl⟩

/-- Claim C8: Get never reports found for an entry whose expiry is
strictly in the past, reports not-found when the key is absent or
expired, and Set overwrites the key with a fresh expiry of now + ttl
while leaving other keys alone. -/
theorem cacheGet_expiry_spec :
    (∀ (α : Type) (c : Cache α) (now : ℚ) (key : String) (entry : CacheEntry α),
      c.entries key = some entry → now > entry.ExpiresAt →
      c.Get now key = (none, false)) ∧
    (∀ (α : Type) (c : Cache α) (now : ℚ) (key : String),
      c.entries key = none → c.Get now key = (none, false)) ∧
    (∀ (α : Type) (c : Cache α) (now : ℚ) (key : String),
      (c.Get now key).2 = true →
      ∃ entry, c.entries key = some entry ∧
        c.Get now key = (some entry.Data, true) ∧ ¬ now > entry.ExpiresAt) ∧
    (∀ (α : Type) (c : Cache α) (now : ℚ) (key : String) (value : α),
      (c.Set now key value).entries key = some ⟨value, now + c.ttl⟩ ∧
      ∀ k2, k2 ≠ key → (c.Set now key value).entries k2 = c.entries k2) := by
  refine ⟨?_, ?_, ?_, ?_⟩
  · intro α c now key entry h hgt
    simp [Cache.Get, h, hgt]
  · intro α c now key h
    simp [Cache.Get, h]
  · intro α c now key hfound
    unfold Cache.Get at hfound ⊢
    cases h : c.entries key with
    | none => rw [h] at hfound; simp at hfound
    | some entry =>
        rw [h] at hfound
        dsimp only at hfound ⊢
        by_cases hgt : now > entry.ExpiresAt
        · rw [if_pos hgt] at hfound; simp at hfound
        · exact ⟨entry, rfl, by rw [if_neg hgt], hgt⟩
  · intro α c now key value
    constructor
    · simp [Cache.Set]
    · intro k2 hk2
      simp [Cache.Set, hk2]

/-- Witness for C8: a lookup strictly after the expiry reports
not-found. -/
theorem cacheGet_expiry_spec_witness :
    cacheW.Get 11 ("k") = (none, false) :=
  cacheGet_expiry_spec.1 ℕ cacheW 11 ("k") ⟨42, 10⟩
    (by simp [cacheW, NewCache, Cache.Set]) (by norm_num)

/-- The Go pow loop computes the monoid power. -/
theorem powGo_eq_pow (b : ℚ) : ∀ n : ℕ, powGo b n = b ^ n
  | 0 => by simp [powGo]
  | n + 1 => by rw [powGo, powGo_eq_pow b n, pow_succ]

/-- Claim C6: CalculateBackoff(0) is the initial backoff; in general the
result is the exponential `InitialBackoff * Multiplier ^ attempt` capped
at `MaxBackoff`; it is non-decreasing in the attempt number and never
exceeds `MaxBackoff`. Stated for any configuration whose initial backoff
is non-negative and at most the cap and whose multiplier is at least 1
(all satisfied by the default configuration). -/
theorem calculateBackoff_spec (rc : RetryConfig)
    (h0 : 0 ≤ rc.InitialBackoff) (hcap : rc.InitialBackoff ≤ rc.MaxBackoff)
    (hm : 1 ≤ rc.Multiplier) :
    rc.CalculateBackoff 0 = rc.InitialBackoff ∧
    (∀ n : ℕ, rc.CalculateBackoff n =
      min (rc.InitialBackoff * rc.Multiplier ^ n) rc.MaxBackoff) ∧
    (∀ n : ℕ, rc.CalculateBackoff n ≤ rc.CalculateBackoff (n + 1)) ∧
    (∀ n : ℕ, rc.CalculateBackoff n ≤ rc.MaxBackoff) := by
  have hpow : ∀ n : ℕ, rc.CalculateBackoff n =
      min (rc.InitialBackoff * rc.Multiplier ^ n) rc.MaxBackoff := by
    intro n
    cases n with
    | zero =>
        simp [RetryConfig.CalculateBackoff, min_eq_left hcap]
    | succ m =>
        simp only [RetryConfig.CalculateBackoff]
        rw [if_neg (by omega)]
        rw [powGo_eq_pow]
        rcases le_or_lt (rc.InitialBackoff * rc.Multiplier ^ (m + 1)) rc.MaxBackoff with h | h
        · rw [if_neg (not_lt.mpr h), min_eq_left h]
        · rw [if_pos h, min_eq_right h.le]
  refine ⟨rfl, hpow, ?_, ?_⟩
  · intro n
    rw [hpow n, hpow (n + 1)]
    refine min_le_min ?_ le_rfl
    have : rc.Multiplier ^ n ≤ rc.Multiplier ^ (n + 1) :=
      pow_le_pow_right₀ hm (Nat.le_succ n)
    exact mul_le_mul_of_nonneg_left this h0
  · intro n
    rw [hpow n]
    exact min_le_right _ _

/-- Witness for C6 at the default configuration. -/
theorem calculateBackoff_spec_witness :
    DefaultRetryConfig.CalculateBackoff 0 = DefaultRetryConfig.InitialBackoff ∧
    DefaultRetryConfig.CalculateBackoff 3 ≤ DefaultRetryConfig.CalculateBackoff 4 ∧
    DefaultRetryConfig.CalculateBackoff 9 ≤ DefaultRetryConfig.MaxBackoff :=
  ⟨(calculateBackoff_spec DefaultRetryConfig (by norm_num [DefaultRetryConfig])
      (by norm_num [DefaultRetryConfig]) (by norm_num [DefaultRetryConfig])).1,
   (calculateBackoff_spec DefaultRetryConfig (by norm_num [DefaultRetryConfig])
      (by norm_num [DefaultRetryConfig]) (by norm_num [DefaultRetryConfig])).2.2.1 3,
   (calculateBackoff_spec DefaultRetryConfig (by norm_num [DefaultRetryConfig])
      (by norm_num [DefaultRetryConfig]) (by norm_num [DefaultRetryConfig])).2.2.2 9⟩

/-- tryAcquire leaves the configuration fields unchanged and stamps
lastRefill with the call time. -/
theorem tryAcquire_fields (rl : RateLimiter) (t : ℚ) :
    (rl.tryAcquire t).2.refillRate = rl.refillRate ∧
    (rl.tryAcquire t).2.maxTokens = rl.maxTokens ∧
    (rl.tryAcquire t).2.lastRefill = t := by
  unfold RateLimiter.tryAcquire RateLimiter.refill
  dsimp only
  split <;> split <;> exact ⟨rfl, rfl, rfl⟩

/-- refill keeps the token count within the bucket bounds when the clock
did not go backwards. -/
theorem refill_inv (rl : RateLimiter) (t : ℚ) (hrate : 0 ≤ rl.refillRate)
    (ht : rl.lastRefill ≤ t) (h : rl.tokensInv) : (rl.refill t).tokensInv := by
  obtain ⟨h0, h1⟩ := h
  have hp : 0 ≤ (t - rl.lastRefill) * rl.refillRate :=
    mul_nonneg (by linarith) hrate
  unfold RateLimiter.refill RateLimiter.tokensInv
  dsimp only
  constructor
  · split
    · linarith
    · linarith
  · split
    · exact le_refl _
    · next h2 => exact le_of_not_lt h2

/-- One tryAcquire step preserves the token-bucket bounds. -/
theorem tryAcquire_inv (rl : RateLimiter) (t : ℚ) (hrate : 0 ≤ rl.refillRate)
    (ht : rl.lastRefill ≤ t) (h : rl.tokensInv) : (rl.tryAcquire t).2.tokensInv := by
  have hr := refill_inv rl t hrate ht h
  obtain ⟨hr0, hr1⟩ := hr
  unfold RateLimiter.tryAcquire
  dsimp only
  split
  · next hge =>
      have hge2 : (1:ℚ) ≤ (rl.refill t).tokens := hge
      constructor
      · show (0:ℚ) ≤ (rl.refill t).tokens - 1
        linarith
      · show (rl.refill t).tokens - 1 ≤ (rl.refill t).maxTokens
        linarith
  · exact ⟨hr0, hr1⟩

/-- Every prefix-state of a sequence of tryAcquire calls along a
monotone clock satisfies the token bounds. -/
theorem runAcquires_inv (ts : List ℚ) : ∀ (rl : RateLimiter),
    0 ≤ rl.refillRate → List.Chain' (· ≤ ·) (rl.lastRefill :: ts) →
    rl.tokensInv → (rl.runAcquires ts).tokensInv := by
  induction ts with
  | nil => intro rl _ _ h; exact h
  | cons t ts ih =>
      intro rl hrate hchain h
      rw [List.chain'_cons] at hchain
      have hfr := tryAcquire_fields rl t
      show ((rl.tryAcquire t).2.runAcquires ts).tokensInv
      apply ih
      · rw [hfr.1]; exact hrate
      · rw [hfr.2.2]; exact hchain.2
      · exact tryAcquire_inv rl t hrate hchain.1 h

/-- Claim C9: a rate limiter created with a non-negative capacity keeps
`0 <= tokens <= maxTokens` at every observation point of any sequence of
acquisition attempts along a monotone clock; refill caps at the
capacity, and a successful acquisition happens exactly when the refilled
bucket holds at least one token and then removes exactly one. -/
theorem rateLimiter_tokens_inv :
    (∀ (maxT rate t0 : ℚ), 0 ≤ maxT → (NewRateLimiter maxT rate t0).tokensInv) ∧
    (∀ (rl : RateLimiter) (t : ℚ), 0 ≤ rl.refillRate → rl.lastRefill ≤ t →
      rl.tokensInv → (rl.tryAcquire t).2.tokensInv) ∧
    (∀ (maxT rate t0 : ℚ) (ts : List ℚ), 0 ≤ maxT → 0 ≤ rate →
      List.Chain' (· ≤ ·) (t0 :: ts) →
      ((NewRateLimiter maxT rate t0).runAcquires ts).tokensInv) ∧
    (∀ (rl : RateLimiter) (t : ℚ),
      ((rl.tryAcquire t).1 = true ↔ 1 ≤ (rl.refill t).tokens) ∧
      ((rl.tryAcquire t).1 = true →
        (rl.tryAcquire t).2.tokens = (rl.refill t).tokens - 1)) := by
  refine ⟨?_, tryAcquire_inv, ?_, ?_⟩
  · intro maxT rate t0 hmax
    exact ⟨hmax, le_refl _⟩
  · intro maxT rate t0 ts hmax hrate hchain
    exact runAcquires_inv ts (NewRateLimiter maxT rate t0) hrate hchain
      ⟨hmax, le_refl _⟩
  · intro rl t
    unfold RateLimiter.tryAcquire
    dsimp only
    constructor
    · constructor
      · intro htrue
        by_contra hlt
        rw [if_neg ?_] at htrue
        · simp at htrue
        · dsimp only
          exact fun hge => hlt hge
      · intro hge
        rw [if_pos hge]
    · intro htrue
      by_cases hge : (1:ℚ) ≤ (rl.refill t).tokens
      · rw [if_pos hge]
      · rw [if_neg hge] at htrue
        simp at htrue

/-- Witness for C9: a concrete three-step acquisition run. -/
theorem rateLimiter_tokens_inv_witness :
    ((NewRateLimiter 2 1 0).runAcquires [0, 1, 5]).tokensInv :=
  rateLimiter_tokens_inv.2.2.1 2 1 0 [0, 1, 5] (by norm_num) (by norm_num)
    (by constructor <;> norm_num)

/-- Claim C3: with `maxFailures = 3`, three consecutive failed calls on a
fresh closed breaker reach the open state (witnessed by the intermediate
state `cbAfter3`); a fourth call made before the timeout elapses is
answered with the open-circuit error and the wrapped function is not
invoked; and in general a failure in the closed state opens the circuit
exactly when the incremented consecutive-failure count reaches
MaxFailures, or the request count has reached MinRequests and the
incremented failure count over the request count reaches the failure
threshold. -/
theorem circuitBreaker_trip_spec :
    ((((cb0.Call 1 (some 7)).2.2.Call 2 (some 7)).2.2.Call 3 (some 7)).2.2
        = cbAfter3) ∧
    ((cbAfter3.Call 4 (some 7)).1 = some .circuitOpen ∧
      (cbAfter3.Call 4 (some 7)).2.1 = false) ∧
    (∀ (cb : CircuitBreaker) (now : ℚ), cb.state = .StateClosed →
      ((cb.onFailure now).state = .StateOpen ↔
        (cb.consecutiveFailures + 1 ≥ cb.config.MaxFailures ∨
          (cb.requests ≥ cb.config.MinRequests ∧
            ((cb.failures : ℚ) + 1) / (cb.requests : ℚ) ≥ cb.config.FailureThreshold)))) := by
  refine ⟨by decide, ?_, ?_⟩
  · constructor <;>
      norm_num [CircuitBreaker.Call, CircuitBreaker.beforeRequest, cbAfter3, cfg3]
  · intro cb now h
    obtain ⟨cfg, st, f, s, req, lft, lsc, hor, cf⟩ := cb
    dsimp only at h
    subst h
    simp only [CircuitBreaker.onFailure, CircuitBreaker.shouldOpen]
    dsimp only
    split
    · next hcond =>
        simp only [Bool.or_eq_true, Bool.and_eq_true, decide_eq_true_eq, ge_iff_le] at hcond
        refine iff_of_true rfl ?_
        push_cast at hcond
        simpa [ge_iff_le] using hcond
    · next hcond =>
        simp only [Bool.or_eq_true, Bool.and_eq_true, decide_eq_true_eq, ge_iff_le] at hcond
        refine iff_of_false (by simp) ?_
        push_cast at hcond
        simpa [ge_iff_le] using hcond

/-- Witness for C3: the general trip condition applied to a closed
breaker that has seen 10 requests and 5 failures. -/
theorem circuitBreaker_trip_spec_witness :
    (cbClosedW.onFailure 9).state = .StateOpen ↔
      (cbClosedW.consecutiveFailures + 1 ≥ cbClosedW.config.MaxFailures ∨
        (cbClosedW.requests ≥ cbClosedW.config.MinRequests ∧
          ((cbClosedW.failures : ℚ) + 1) / (cbClosedW.requests : ℚ)
            ≥ cbClosedW.config.FailureThreshold)) :=
  circuitBreaker_trip_spec.2.2 cbClosedW 9 rfl

/-- A half-open breaker that is n successful calls short of its
half-open cap closes after exactly those n calls, with counters
cleared by reset. -/
theorem succCalls_halfOpen_closes : ∀ (n : ℕ) (cb : CircuitBreaker) (t : ℚ),
    1 ≤ n → cb.state = .StateHalfOpen →
    cb.halfOpenRequests + n = cb.config.HalfOpenMaxRequests →
    (succCalls cb t n).state = .StateClosed ∧ (succCalls cb t n).countersZero := by
  intro n
  induction n with
  | zero => intro cb t h1; omega
  | succ m ih =>
      intro cb t h1 hst hcap
      obtain ⟨cfg, st, f, s, req, lft, lsc, hor, cf⟩ := cb
      dsimp only at hst hcap
      subst hst
      have hb : CircuitBreaker.beforeRequest
          ⟨cfg, .StateHalfOpen, f, s, req, lft, lsc, hor, cf⟩ t =
          (none, ⟨cfg, .StateHalfOpen, f, s, req + 1, lft, lsc, hor + 1, cf⟩) := by
        simp only [CircuitBreaker.beforeRequest]
        rw [if_neg (by omega)]
      have hcall : CircuitBreaker.Call
          ⟨cfg, .StateHalfOpen, f, s, req, lft, lsc, hor, cf⟩ t none =
          (none, true, CircuitBreaker.onSuccess
            ⟨cfg, .StateHalfOpen, f, s, req + 1, lft, lsc, hor + 1, cf⟩ t) := by
        simp only [CircuitBreaker.Call, hb]
        rfl
      by_cases hm : m = 0
      · subst hm
        simp only [succCalls]
        rw [hcall]
        dsimp only
        have honc : CircuitBreaker.onSuccess
            ⟨cfg, .StateHalfOpen, f, s, req + 1, lft, lsc, hor + 1, cf⟩ t =
            CircuitBreaker.reset ⟨cfg, .StateClosed, f, s + 1, req + 1, lft, t, hor + 1, 0⟩ := by
          simp only [CircuitBreaker.onSuccess]
          rw [if_pos (by omega)]
        rw [honc]
        exact ⟨rfl, rfl, rfl, rfl, rfl, rfl⟩
      · have hm1 : 1 ≤ m := by omega
        simp only [succCalls]
        rw [hcall]
        have honc : CircuitBreaker.onSuccess
            ⟨cfg, .StateHalfOpen, f, s, req + 1, lft, lsc, hor + 1, cf⟩ t =
            ⟨cfg, .StateHalfOpen, f, s + 1, req + 1, lft, lsc, hor + 1, 0⟩ := by
          simp only [CircuitBreaker.onSuccess]
          rw [if_neg (by omega)]
        rw [honc]
        exact ih ⟨cfg, .StateHalfOpen, f, s + 1, req + 1, lft, lsc, hor + 1, 0⟩ t hm1 rfl
          (by show hor + 1 + m = cfg.HalfOpenMaxRequests; omega)

/-- Claim C4: from the open state, once strictly more than the timeout
has elapsed since the last state change, the next call transitions the
breaker to half-open and is allowed through; a failure of a call seen
in the half-open state returns the breaker to open; halfOpenMaxRequests
consecutive successful calls from the expired-open state close the
breaker with all five counters reset to zero; and every transition into
the closed state (by beforeRequest, afterRequest or the manual Reset)
leaves all counters zero. -/
theorem circuitBreaker_recovery_spec :
    (∀ (cb : CircuitBreaker) (now : ℚ), cb.state = .StateOpen →
      now - cb.lastStateChange > cb.config.Timeout →
      (cb.beforeRequest now).1 = none ∧
      (cb.beforeRequest now).2.state = .StateHalfOpen ∧
      (∀ fnErr, (cb.Call now fnErr).2.1 = true)) ∧
    (∀ (cb : CircuitBreaker) (now : ℚ) (k : ℕ), cb.state = .StateHalfOpen →
      (cb.onFailure now).state = .StateOpen ∧
      ((cb.Call now (some k)).2.1 = true →
        (cb.Call now (some k)).2.2.state = .StateOpen)) ∧
    (∀ (cb : CircuitBreaker) (now : ℚ), cb.state = .StateOpen →
      now - cb.lastStateChange > cb.config.Timeout →
      1 ≤ cb.config.HalfOpenMaxRequests →
      (succCalls cb now cb.config.HalfOpenMaxRequests).state = .StateClosed ∧
      (succCalls cb now cb.config.HalfOpenMaxRequests).countersZero) ∧
    ((∀ (cb : CircuitBreaker) (now : ℚ), cb.state ≠ .StateClosed →
        (cb.beforeRequest now).2.state = .StateClosed →
        (cb.beforeRequest now).2.countersZero) ∧
      (∀ (cb : CircuitBreaker) (now : ℚ) (err : Option ℕ), cb.state ≠ .StateClosed →
        (cb.afterRequest now err).state = .StateClosed →
        (cb.afterRequest now err).countersZero) ∧
      (∀ (cb : CircuitBreaker) (now : ℚ), (cb.Reset now).countersZero)) := by
  refine ⟨?_, ?_, ?_, ?_, ?_, ?_⟩
  · -- (a) open and expired: admitted into half-open
    intro cb now hst hto
    obtain ⟨cfg, st, f, s, req, lft, lsc, hor, cf⟩ := cb
    dsimp only at hst hto
    subst hst
    have hb : CircuitBreaker.beforeRequest
        ⟨cfg, .StateOpen, f, s, req, lft, lsc, hor, cf⟩ now =
        (none, ⟨cfg, .StateHalfOpen, f, s, req + 1, lft, now, 1, cf⟩) := by
      simp only [CircuitBreaker.beforeRequest]
      rw [if_pos hto]
    refine ⟨by rw [hb], by rw [hb], ?_⟩
    intro fnErr
    simp only [CircuitBreaker.Call, hb]
  · -- (b) a failure while half-open reopens the circuit
    intro cb now k hst
    obtain ⟨cfg, st, f, s, req, lft, lsc, hor, cf⟩ := cb
    dsimp only at hst
    subst hst
    constructor
    · simp only [CircuitBreaker.onFailure]
    · by_cases hsat : hor ≥ cfg.HalfOpenMaxRequests
      · have hb : CircuitBreaker.beforeRequest
            ⟨cfg, .StateHalfOpen, f, s, req, lft, lsc, hor, cf⟩ now =
            (some .tooManyRequests, ⟨cfg, .StateHalfOpen, f, s, req, lft, lsc, hor, cf⟩) := by
          simp only [CircuitBreaker.beforeRequest]
          rw [if_pos hsat]
        intro hinv
        rw [CircuitBreaker.Call] at hinv
        rw [hb] at hinv
        simp at hinv
      · have hb : CircuitBreaker.beforeRequest
            ⟨cfg, .StateHalfOpen, f, s, req, lft, lsc, hor, cf⟩ now =
            (none, ⟨cfg, .StateHalfOpen, f, s, req + 1, lft, lsc, hor + 1, cf⟩) := by
          simp only [CircuitBreaker.beforeRequest]
          rw [if_neg hsat]
        intro _
        simp only [CircuitBreaker.Call, hb]
        simp only [CircuitBreaker.afterRequest, CircuitBreaker.onFailure]
  · -- (c) the half-open cap of consecutive successes closes the circuit
    intro cb now hst hto hcap
    obtain ⟨cfg, st, f, s, req, lft, lsc, hor, cf⟩ := cb
    dsimp only at hst hto hcap
    subst hst
    have hb : CircuitBreaker.beforeRequest
        ⟨cfg, .StateOpen, f, s, req, lft, lsc, hor, cf⟩ now =
        (none, ⟨cfg, .StateHalfOpen, f, s, req + 1, lft, now, 1, cf⟩) := by
      simp only [CircuitBreaker.beforeRequest]
      rw [if_pos hto]
    have hcall : CircuitBreaker.Call
        ⟨cfg, .StateOpen, f, s, req, lft, lsc, hor, cf⟩ now none =
        (none, true, CircuitBreaker.onSuccess
          ⟨cfg, .StateHalfOpen, f, s, req + 1, lft, now, 1, cf⟩ now) := by
      simp only [CircuitBreaker.Call, hb]
      rfl
    obtain ⟨m, hM⟩ : ∃ m, cfg.HalfOpenMaxRequests = m + 1 :=
      ⟨cfg.HalfOpenMaxRequests - 1, by omega⟩
    rw [hM]
    simp only [succCalls]
    rw [hcall]
    by_cases hm : m = 0
    · subst hm
      have honc : CircuitBreaker.onSuccess
          ⟨cfg, .StateHalfOpen, f, s, req + 1, lft, now, 1, cf⟩ now =
          CircuitBreaker.reset ⟨cfg, .StateClosed, f, s + 1, req + 1, lft, now, 1, 0⟩ := by
        simp only [CircuitBreaker.onSuccess]
        rw [if_pos (by omega)]
      rw [honc]
      exact ⟨rfl, rfl, rfl, rfl, rfl, rfl⟩
    · have honc : CircuitBreaker.onSuccess
          ⟨cfg, .StateHalfOpen, f, s, req + 1, lft, now, 1, cf⟩ now =
          ⟨cfg, .StateHalfOpen, f, s + 1, req + 1, lft, now, 1, 0⟩ := by
        simp only [CircuitBreaker.onSuccess]
        rw [if_neg (by omega)]
      rw [honc]
      exact succCalls_halfOpen_closes m
        ⟨cfg, .StateHalfOpen, f, s + 1, req + 1, lft, now, 1, 0⟩ now
        (by omega) rfl (by show 1 + m = cfg.HalfOpenMaxRequests; omega)
  · -- (d1) beforeRequest never transitions into closed
    intro cb now hne hcl
    obtain ⟨cfg, st, f, s, req, lft, lsc, hor, cf⟩ := cb
    cases st with
    | StateClosed => exact absurd rfl hne
    | StateOpen =>
        simp only [CircuitBreaker.beforeRequest] at hcl
        split at hcl <;> simp at hcl
    | StateHalfOpen =>
        simp only [CircuitBreaker.beforeRequest] at hcl
        split at hcl <;> simp at hcl
  · -- (d2) afterRequest enters closed only through reset
    intro cb now err hne hcl
    obtain ⟨cfg, st, f, s, req, lft, lsc, hor, cf⟩ := cb
    cases err with
    | some k =>
        cases st with
        | StateClosed => exact absurd rfl hne
        | StateOpen =>
            simp only [CircuitBreaker.afterRequest, CircuitBreaker.onFailure] at hcl
            simp at hcl
        | StateHalfOpen =>
            simp only [CircuitBreaker.afterRequest, CircuitBreaker.onFailure] at hcl
            simp at hcl
    | none =>
        cases st with
        | StateClosed => exact absurd rfl hne
        | StateOpen =>
            simp only [CircuitBreaker.afterRequest, CircuitBreaker.onSuccess] at hcl
            simp at hcl
        | StateHalfOpen =>
            simp only [CircuitBreaker.afterRequest, CircuitBreaker.onSuccess] at hcl ⊢
            by_cases hsat : hor ≥ cfg.HalfOpenMaxRequests
            · rw [if_pos hsat]
              exact ⟨rfl, rfl, rfl, rfl, rfl⟩
            · rw [if_neg hsat] at hcl
              simp at hcl
  · -- (d3) the manual Reset clears the counters
    intro cb now
    exact ⟨rfl, rfl, rfl, rfl, rfl⟩

theorem circuitBreaker_recovery_spec_witness :
    (succCalls cbOpenW 40 cbOpenW.config.HalfOpenMaxRequests).state = .StateClosed ∧
    (succCalls cbOpenW 40 cbOpenW.config.HalfOpenMaxRequests).countersZero :=
  circuitBreaker_recovery_spec.2.2.1 cbOpenW 40 rfl (by norm_num [cbOpenW, cfg3])
    (by norm_num [cbOpenW, cfg3])

/-! Step lemmas for the retry loop: one for each way a single loop
iteration can resolve. -/

theorem execAux_circuitOpen_step (rc : RetryConfig) (dep : ℕ → ReqResult)
    (tm : ℕ → ℚ) (attempt fuel : ℕ) (cb cb2 : CircuitBreaker)
    (lastErr : Option GoErr) (sc fnCalls : ℕ) (sleeps : List ℚ) (inv : Bool)
    (h : cb.Call (tm attempt) (dep fnCalls).err = (some .circuitOpen, inv, cb2)) :
    execAux rc dep tm attempt (fuel + 1) cb lastErr sc fnCalls sleeps =
      (.circuitOpen, if inv then fnCalls + 1 else fnCalls, sleeps, cb2) := by
  simp only [execAux, h]

theorem execAux_ok_step (rc : RetryConfig) (dep : ℕ → ReqResult)
    (tm : ℕ → ℚ) (attempt fuel : ℕ) (cb cb2 : CircuitBreaker)
    (lastErr : Option GoErr) (sc fnCalls : ℕ) (sleeps : List ℚ) (inv : Bool)
    (h : cb.Call (tm attempt) (dep fnCalls).err = (none, inv, cb2)) :
    execAux rc dep tm attempt (fuel + 1) cb lastErr sc fnCalls sleeps =
      (.ok (dep fnCalls).body, if inv then fnCalls + 1 else fnCalls, sleeps, cb2) := by
  simp only [execAux, h]

theorem execAux_fail_retry_step (rc : RetryConfig) (dep : ℕ → ReqResult)
    (tm : ℕ → ℚ) (attempt fuel : ℕ) (cb cb2 : CircuitBreaker)
    (lastErr : Option GoErr) (sc fnCalls : ℕ) (sleeps : List ℚ) (inv : Bool)
    (e : GoErr)
    (h : cb.Call (tm attempt) (dep fnCalls).err = (some e, inv, cb2))
    (hne : e ≠ .circuitOpen) (hlt : attempt < rc.MaxRetries) :
    execAux rc dep tm attempt (fuel + 1) cb lastErr sc fnCalls sleeps =
      execAux rc dep tm (attempt + 1) fuel cb2 (some e)
        (if inv then (dep fnCalls).status else sc)
        (if inv then fnCalls + 1 else fnCalls)
        (sleeps ++ [rc.CalculateBackoff attempt]) := by
  cases e with
  | circuitOpen => exact absurd rfl hne
  | tooManyRequests =>
      simp only [execAux, h]
      rw [if_pos (by simp [hlt, RetryConfig.ShouldRetry])]
  | reqFailed c =>
      simp only [execAux, h]
      rw [if_pos (by simp [hlt, RetryConfig.ShouldRetry])]

theorem execAux_fail_stop_step (rc : RetryConfig) (dep : ℕ → ReqResult)
    (tm : ℕ → ℚ) (attempt fuel : ℕ) (cb cb2 : CircuitBreaker)
    (lastErr : Option GoErr) (sc fnCalls : ℕ) (sleeps : List ℚ) (inv : Bool)
    (e : GoErr)
    (h : cb.Call (tm attempt) (dep fnCalls).err = (some e, inv, cb2))
    (hne : e ≠ .circuitOpen) (hge : ¬ attempt < rc.MaxRetries) :
    execAux rc dep tm attempt (fuel + 1) cb lastErr sc fnCalls sleeps =
      (.exhausted ⟨some e, rc.MaxRetries + 1, rc.MaxRetries,
          if inv then (dep fnCalls).status else sc⟩,
        if inv then fnCalls + 1 else fnCalls, sleeps, cb2) := by
  cases e with
  | circuitOpen => exact absurd rfl hne
  | tooManyRequests =>
      simp only [execAux, h]
      rw [if_neg (by simp [hge, RetryConfig.ShouldRetry])]
  | reqFailed c =>
      simp only [execAux, h]
      rw [if_neg (by simp [hge, RetryConfig.ShouldRetry])]

/-- Claim C1 (amended): when the circuit breaker rejects an attempt with
ErrCircuitOpen, the retry loop returns that rejection immediately,
performing no further network call and no backoff sleep; but when the
rejection is ErrTooManyRequests (half-open cap saturated) and retry
budget remains, the loop does NOT abort: it records the rejection as the
last error, sleeps the backoff for the current attempt and proceeds to
the next iteration. -/

theorem breakerReject_abort_spec :
    (∀ (rc : RetryConfig) (dep : ℕ → ReqResult) (tm : ℕ → ℚ)
        (attempt fuel : ℕ) (cb cb1 : CircuitBreaker) (lastErr : Option GoErr)
        (sc fnCalls : ℕ) (sleeps : List ℚ),
      cb.beforeRequest (tm attempt) = (some .circuitOpen, cb1) →
      execAux rc dep tm attempt (fuel + 1) cb lastErr sc fnCalls sleeps =
        (.circuitOpen, fnCalls, sleeps, cb1)) ∧
    (∀ (rc : RetryConfig) (dep : ℕ → ReqResult) (tm : ℕ → ℚ)
        (attempt fuel : ℕ) (cb cb1 : CircuitBreaker) (lastErr : Option GoErr)
        (sc fnCalls : ℕ) (sleeps : List ℚ),
      cb.beforeRequest (tm attempt) = (some .tooManyRequests, cb1) →
      attempt < rc.MaxRetries →
      execAux rc dep tm attempt (fuel + 1) cb lastErr sc fnCalls sleeps =
        execAux rc dep tm (attempt + 1) fuel cb1 (some .tooManyRequests) sc fnCalls
          (sleeps ++ [rc.CalculateBackoff attempt])) := by
  constructor
  · intro rc dep tm attempt fuel cb cb1 lastErr sc fnCalls sleeps hb
    have hcall : cb.Call (tm attempt) (dep fnCalls).err =
        (some .circuitOpen, false, cb1) := by
      simp only [CircuitBreaker.Call, hb]
    simpa using execAux_circuitOpen_step rc dep tm attempt fuel cb cb1 lastErr
      sc fnCalls sleeps false hcall
  · intro rc dep tm attempt fuel cb cb1 lastErr sc fnCalls sleeps hb hlt
    have hcall : cb.Call (tm attempt) (dep fnCalls).err =
        (some .tooManyRequests, false, cb1) := by
      simp only [CircuitBreaker.Call, hb]
    simpa using execAux_fail_retry_step rc dep tm attempt fuel cb cb1 lastErr
      sc fnCalls sleeps false .tooManyRequests hcall (by simp) hlt

theorem breakerReject_abort_spec_witness :
    execAux rc1 dep9 tm0 0 1 cbOpenW none 0 0 [] = (.circuitOpen, 0, [], cbOpenW) :=
  breakerReject_abort_spec.1 rc1 dep9 tm0 0 0 cbOpenW cbOpenW none 0 0 []
    (by norm_num [CircuitBreaker.beforeRequest, cbOpenW, cfg3, tm0])

theorem breakerReject_abort_counterexample :
    (doRequestWithContext rc1 cbSat dep9 tm0).1 =
      .exhausted ⟨some .tooManyRequests, 2, 1, 0⟩ ∧
    (doRequestWithContext rc1 cbSat dep9 tm0).2.1 = 0 ∧
    (doRequestWithContext rc1 cbSat dep9 tm0).2.2.1.length = 1 := by
  refine ⟨by decide, by decide, by decide⟩

/-- Any run of the retry loop that ends in the terminal error records
attempt count MaxRetries + 1 and the configured MaxRetries, and performs
at most one network call per remaining loop iteration. -/

theorem execAux_exhausted_fields (rc : RetryConfig) (dep : ℕ → ReqResult)
    (tm : ℕ → ℚ) :
    ∀ (fuel attempt : ℕ) (cb : CircuitBreaker) (lastErr : Option GoErr)
      (sc fnCalls : ℕ) (sleeps : List ℚ) (e : RetryableError) (n : ℕ)
      (sl : List ℚ) (cbf : CircuitBreaker),
    execAux rc dep tm attempt fuel cb lastErr sc fnCalls sleeps =
      (.exhausted e, n, sl, cbf) →
    e.Attempt = rc.MaxRetries + 1 ∧ e.MaxRetries = rc.MaxRetries ∧
      n ≤ fnCalls + fuel := by
  intro fuel
  induction fuel with
  | zero =>
      intro attempt cb lastErr sc fnCalls sleeps e n sl cbf h
      simp only [execAux, Prod.mk.injEq, ExecResult.exhausted.injEq] at h
      obtain ⟨he, hn, _, _⟩ := h
      rw [← he]
      exact ⟨rfl, rfl, by omega⟩
  | succ fuel ih =>
      intro attempt cb lastErr sc fnCalls sleeps e n sl cbf h
      rcases hc : cb.Call (tm attempt) (dep fnCalls).err with ⟨err, inv, cb2⟩
      rcases err with _ | e0
      · rw [execAux_ok_step rc dep tm attempt fuel cb cb2 lastErr sc fnCalls
          sleeps inv hc] at h
        simp at h
      · rcases e0 with _ | _ | c
        · rw [execAux_circuitOpen_step rc dep tm attempt fuel cb cb2 lastErr sc
            fnCalls sleeps inv hc] at h
          simp at h
        · by_cases hlt : attempt < rc.MaxRetries
          · rw [execAux_fail_retry_step rc dep tm attempt fuel cb cb2 lastErr sc
              fnCalls sleeps inv .tooManyRequests hc (by simp) hlt] at h
            have h2 := ih (attempt + 1) cb2 (some .tooManyRequests)
              (if inv then (dep fnCalls).status else sc)
              (if inv then fnCalls + 1 else fnCalls)
              (sleeps ++ [rc.CalculateBackoff attempt]) e n sl cbf h
            refine ⟨h2.1, h2.2.1, ?_⟩
            have h3 := h2.2.2
            split at h3 <;> omega
          · rw [execAux_fail_stop_step rc dep tm attempt fuel cb cb2 lastErr sc
              fnCalls sleeps inv .tooManyRequests hc (by simp) hlt] at h
            simp only [Prod.mk.injEq, ExecResult.exhausted.injEq] at h
            obtain ⟨he, hn, _, _⟩ := h
            rw [← he]
            refine ⟨rfl, rfl, ?_⟩
            split at hn <;> omega
        · by_cases hlt : attempt < rc.MaxRetries
          · rw [execAux_fail_retry_step rc dep tm attempt fuel cb cb2 lastErr sc
              fnCalls sleeps inv (.reqFailed c) hc (by simp) hlt] at h
            have h2 := ih (attempt + 1) cb2 (some (.reqFailed c))
              (if inv then (dep fnCalls).status else sc)
              (if inv then fnCalls + 1 else fnCalls)
              (sleeps ++ [rc.CalculateBackoff attempt]) e n sl cbf h
            refine ⟨h2.1, h2.2.1, ?_⟩
            have h3 := h2.2.2
            split at h3 <;> omega
          · rw [execAux_fail_stop_step rc dep tm attempt fuel cb cb2 lastErr sc
              fnCalls sleeps inv (.reqFailed c) hc (by simp) hlt] at h
            simp only [Prod.mk.injEq, ExecResult.exhausted.injEq] at h
            obtain ⟨he, hn, _, _⟩ := h
            rw [← he]
            refine ⟨rfl, rfl, ?_⟩
            split at hn <;> omega

/-- In a run whose closed breaker never trips and whose dependency fails
every network call, the loop exhausts its whole budget: it performs one
network call per iteration and ends with the terminal error recording
the last call's error and status code. -/

theorem execAux_allFail (rc : RetryConfig) (dep : ℕ → ReqResult) (tm : ℕ → ℚ)
    (hdep : ∀ i, (dep i).err.isSome = true) :
    ∀ (k attempt : ℕ) (cb : CircuitBreaker) (lastErr : Option GoErr)
      (sc fnCalls : ℕ) (sleeps : List ℚ),
    attempt + (k + 1) = rc.MaxRetries + 1 →
    cb.state = .StateClosed →
    cb.consecutiveFailures + (k + 1) ≤ cb.config.MaxFailures →
    cb.requests + (k + 1) ≤ cb.config.MinRequests →
    ∃ sl cbf,
      execAux rc dep tm attempt (k + 1) cb lastErr sc fnCalls sleeps =
        (.exhausted ⟨(dep (fnCalls + k)).err.map GoErr.reqFailed,
            rc.MaxRetries + 1, rc.MaxRetries, (dep (fnCalls + k)).status⟩,
          fnCalls + k + 1, sl, cbf) := by
  intro k
  induction k with
  | zero =>
      intro attempt cb lastErr sc fnCalls sleeps hatt hst hcf hreq
      obtain ⟨cfg, st, f, s, req, lft, lsc, hor, cf⟩ := cb
      dsimp only at hst
      subst hst
      obtain ⟨ec, hec⟩ := Option.isSome_iff_exists.mp (hdep fnCalls)
      have hb : CircuitBreaker.beforeRequest
          ⟨cfg, .StateClosed, f, s, req, lft, lsc, hor, cf⟩ (tm attempt) =
          (none, ⟨cfg, .StateClosed, f, s, req + 1, lft, lsc, hor, cf⟩) := rfl
      have hcall : CircuitBreaker.Call
          ⟨cfg, .StateClosed, f, s, req, lft, lsc, hor, cf⟩ (tm attempt)
          (dep fnCalls).err =
          (some (.reqFailed ec), true, CircuitBreaker.onFailure
            ⟨cfg, .StateClosed, f, s, req + 1, lft, lsc, hor, cf⟩ (tm attempt)) := by
        simp only [CircuitBreaker.Call, hb, hec]
        rfl
      refine ⟨sleeps, CircuitBreaker.onFailure
        ⟨cfg, .StateClosed, f, s, req + 1, lft, lsc, hor, cf⟩ (tm attempt), ?_⟩
      rw [execAux_fail_stop_step rc dep tm attempt 0 _ _ lastErr sc fnCalls
        sleeps true (.reqFailed ec) hcall (by simp) (by omega)]
      simp [hec]
  | succ m ih =>
      intro attempt cb lastErr sc fnCalls sleeps hatt hst hcf hreq
      obtain ⟨cfg, st, f, s, req, lft, lsc, hor, cf⟩ := cb
      dsimp only at hst
      subst hst
      obtain ⟨ec, hec⟩ := Option.isSome_iff_exists.mp (hdep fnCalls)
      have hb : CircuitBreaker.beforeRequest
          ⟨cfg, .StateClosed, f, s, req, lft, lsc, hor, cf⟩ (tm attempt) =
          (none, ⟨cfg, .StateClosed, f, s, req + 1, lft, lsc, hor, cf⟩) := rfl
      have hcall : CircuitBreaker.Call
          ⟨cfg, .StateClosed, f, s, req, lft, lsc, hor, cf⟩ (tm attempt)
          (dep fnCalls).err =
          (some (.reqFailed ec), true, CircuitBreaker.onFailure
            ⟨cfg, .StateClosed, f, s, req + 1, lft, lsc, hor, cf⟩ (tm attempt)) := by
        simp only [CircuitBreaker.Call, hb, hec]
        rfl
      have hcf2 : cf + (m + 1 + 1) ≤ cfg.MaxFailures := hcf
      have hreq2 : req + (m + 1 + 1) ≤ cfg.MinRequests := hreq
      have honf : CircuitBreaker.onFailure
          ⟨cfg, .StateClosed, f, s, req + 1, lft, lsc, hor, cf⟩ (tm attempt) =
          ⟨cfg, .StateClosed, f + 1, s, req + 1, tm attempt, lsc, hor, cf + 1⟩ := by
        simp only [CircuitBreaker.onFailure]
        rw [if_neg ?hso]
        case hso =>
          simp only [CircuitBreaker.shouldOpen, Bool.or_eq_true, Bool.and_eq_true,
            decide_eq_true_eq]
          rintro (h1 | ⟨h2, _⟩) <;> omega
      have hlt : attempt < rc.MaxRetries := by omega
      obtain ⟨sl, cbf, heq⟩ := ih (attempt + 1)
        ⟨cfg, .StateClosed, f + 1, s, req + 1, tm attempt, lsc, hor, cf + 1⟩
        (some (.reqFailed ec)) (dep fnCalls).status (fnCalls + 1)
        (sleeps ++ [rc.CalculateBackoff attempt]) (by omega) rfl
        (by show cf + 1 + (m + 1) ≤ cfg.MaxFailures; omega)
        (by show req + 1 + (m + 1) ≤ cfg.MinRequests; omega)
      refine ⟨sl, cbf, ?_⟩
      rw [execAux_fail_retry_step rc dep tm attempt (m + 1) _ _ lastErr sc
        fnCalls sleeps true (.reqFailed ec) hcall (by simp) hlt, honf]
      simp only [if_pos rfl]
      rw [show fnCalls + (m + 1) = fnCalls + 1 + m from by omega]
      exact heq

/-- Claim C2 (amended): whenever the retry loop exits with the terminal
structured error, the recorded attempt count is always MaxRetries + 1 (the
size of the attempt budget) and the recorded MaxRetries is the configured
value, while the number of network calls actually performed is at most
MaxRetries + 1 (and can be smaller when the breaker's half-open cap
rejected iterations without invoking the network); in a run in which a
never-tripping closed breaker admits every attempt and every network call
fails, the terminal error records exactly the last call's error and status
code, and there the count MaxRetries + 1 does coincide with the network
calls performed. -/
theorem exhausted_records_spec :
    (∀ (rc : RetryConfig) (cb : CircuitBreaker) (dep : ℕ → ReqResult)
        (tm : ℕ → ℚ) (e : RetryableError) (n : ℕ) (sl : List ℚ)
        (cbf : CircuitBreaker),
      doRequestWithContext rc cb dep tm = (.exhausted e, n, sl, cbf) →
      e.Attempt = rc.MaxRetries + 1 ∧ e.MaxRetries = rc.MaxRetries ∧
        n ≤ rc.MaxRetries + 1) ∧
    (∀ (rc : RetryConfig) (dep : ℕ → ReqResult) (tm : ℕ → ℚ)
        (cb : CircuitBreaker),
      (∀ i, (dep i).err.isSome = true) →
      cb.state = .StateClosed →
      cb.consecutiveFailures + (rc.MaxRetries + 1) ≤ cb.config.MaxFailures →
      cb.requests + (rc.MaxRetries + 1) ≤ cb.config.MinRequests →
      ∃ sl cbf, doRequestWithContext rc cb dep tm =
        (.exhausted ⟨(dep rc.MaxRetries).err.map GoErr.reqFailed,
            rc.MaxRetries + 1, rc.MaxRetries, (dep rc.MaxRetries).status⟩,
          rc.MaxRetries + 1, sl, cbf)) := by
  constructor
  · intro rc cb dep tm e n sl cbf h
    rw [doRequestWithContext] at h
    have h2 := execAux_exhausted_fields rc dep tm (rc.MaxRetries + 1) 0 cb none
      0 0 [] e n sl cbf h
    exact ⟨h2.1, h2.2.1, by omega⟩
  · intro rc dep tm cb hdep hst hcf hreq
    obtain ⟨sl, cbf, heq⟩ := execAux_allFail rc dep tm hdep rc.MaxRetries 0 cb
      none 0 0 [] (by omega) hst hcf hreq
    refine ⟨sl, cbf, ?_⟩
    rw [doRequestWithContext, heq]
    simp

/-- Witness for the amended C2 at a fresh default breaker and an
always-failing dependency. -/
theorem exhausted_records_spec_witness :
    ∃ sl cbf, doRequestWithContext rc2 cbFreshW dep9 tm0 =
      (.exhausted ⟨(dep9 rc2.MaxRetries).err.map GoErr.reqFailed,
          rc2.MaxRetries + 1, rc2.MaxRetries, (dep9 rc2.MaxRetries).status⟩,
        rc2.MaxRetries + 1, sl, cbf) :=
  exhausted_records_spec.2 rc2 dep9 tm0 cbFreshW (fun _ => rfl) rfl
    (by decide) (by decide)

/-- Counterexample to C2 as stated: from a saturated half-open breaker
with `maxRetries = 2`, the loop performs zero network calls, yet the
terminal error records an attempt count of 3. -/
theorem exhausted_records_counterexample :
    (doRequestWithContext rc2 cbSat dep9 tm0).1 =
      .exhausted ⟨some .tooManyRequests, 3, 2, 0⟩ ∧
    (doRequestWithContext rc2 cbSat dep9 tm0).2.1 = 0 := by
  exact ⟨by decide, by decide⟩

/-- Claim C5: against a dependency answering 503 with an error on every
attempt, with `maxRetries = 2` and 503 retryable, any execution whose
closed circuit breaker cannot trip within the run returns the terminal
RetryExhausted error with attempt count 3 (one initial attempt plus two
retries), last status code 503, and exactly 3 network calls performed. -/
theorem always503_exhausts (cb : CircuitBreaker) (tm : ℕ → ℚ)
    (hst : cb.state = .StateClosed)
    (hcf : cb.consecutiveFailures + 3 ≤ cb.config.MaxFailures)
    (hreq : cb.requests + 3 ≤ cb.config.MinRequests) :
    ∃ sl cbf, doRequestWithContext rc2 cb dep9 tm =
      (.exhausted ⟨some (.reqFailed 9), 3, 2, 503⟩, 3, sl, cbf) := by
  obtain ⟨sl, cbf, heq⟩ := execAux_allFail rc2 dep9 tm (fun _ => rfl) 2 0 cb
    none 0 0 [] (by decide) hst hcf hreq
  exact ⟨sl, cbf, heq⟩

/-- Witness for C5 at a fresh default breaker. -/
theorem always503_exhausts_witness :
    ∃ sl cbf, doRequestWithContext rc2 cbFreshW dep9 tm0 =
      (.exhausted ⟨some (.reqFailed 9), 3, 2, 503⟩, 3, sl, cbf) :=
  always503_exhausts cbFreshW tm0 rfl (by decide) (by decide)
